import Mathlib

/-
Verification development for the Supabase table poller/viewer
(src/frontend/src/pages/DbView.jsx).

The component `SupabaseTableViewer` keeps five pieces of React state
(`data`, `loading`, `isRefreshing`, `error`, `lastUpdated`), mutated only by
the `fetchData` callback, and renders one of four outputs depending on that
state.  We embed the state as a structure, each observable fetch event
(start of a fetch, completion with an outcome) as a step function on the
state, and the render logic as a total function from state to a `Render`
value.  Traces of events since mount are lists folded through the step
function.
-/

namespace DbView

/-- JSON-compatible values carried by a table row, as produced by the
Supabase client: the row is an open mapping from field names to such
values. -/
inductive Json where
  | null : Json
  | bool : Bool → Json
  | num : Int → Json
  | str : String → Json
  | arr : List Json → Json
  | obj : List (String × Json) → Json

/-- Escape a character the way JSON string serialization does for the two
characters that matter structurally (quote and backslash). -/
def escapeChar (c : Char) : String :=
  if c = '"' then "\\\"" else if c = '\\' then "\\\\" else String.singleton c

/-- Escape a whole string for JSON serialization. -/
def escapeString (s : String) : String :=
  String.join (s.data.map escapeChar)

mutual

/-- Model of the JavaScript builtin `JSON.stringify` applied to a
JSON-compatible value (line 119 of DbView.jsx renders
`JSON.stringify(value)` for each field value). -/
def jsonStringify : Json → String
  | Json.null => "null"
  | Json.bool true => "true"
  | Json.bool false => "false"
  | Json.num n => toString n
  | Json.str s => "\"" ++ escapeString s ++ "\""
  | Json.arr xs => "[" ++ stringifyArray xs ++ "]"
  | Json.obj fs => "\x7b" ++ stringifyFields fs ++ "\x7d"

/-- Comma-separated serialization of an array body. -/
def stringifyArray : List Json → String
  | [] => ""
  | [x] => jsonStringify x
  | x :: y :: rest => jsonStringify x ++ "," ++ stringifyArray (y :: rest)

/-- Comma-separated serialization of an object body. -/
def stringifyFields : List (String × Json) → String
  | [] => ""
  | [(k, v)] => "\"" ++ escapeString k ++ "\":" ++ jsonStringify v
  | (k, v) :: kv :: rest =>
      "\"" ++ escapeString k ++ "\":" ++ jsonStringify v ++ "," ++
        stringifyFields (kv :: rest)

end

/-- A table row: an open mapping from field name to JSON value, in the
order the service returned the fields. -/
abbrev Row := List (String × Json)

/-- Outcome of one fetch: the Supabase query resolves to a record
`{ data, error }`.  A success carries the rows (possibly `null`, modelled
as `none`); a failure carries the thrown error's `message` property, which
may itself be absent (`none`) or any string. -/
inductive FetchOutcome where
  | success : Option (List Row) → FetchOutcome
  | failure : Option String → FetchOutcome

/-- Observable events of one mounted `SupabaseTableViewer` instance, in
the order their state updates run on the UI thread: a fetch starts
(line 26, `setIsRefreshing(true)`), or a fetch completes with an outcome
at wall-clock time `t` (lines 33-50). -/
inductive Event where
  | fetchStart : Event
  | fetchComplete : FetchOutcome → Nat → Event

/-- React state of `SupabaseTableViewer` (lines 17-21 of DbView.jsx). -/
structure ViewerState where
  data : List Row
  loading : Bool
  isRefreshing : Bool
  error : Option String
  lastUpdated : Option Nat

/-- Initial state at mount: `useState([])`, `useState(true)`,
`useState(false)`, `useState(null)`, `useState(null)`. -/
def initialState : ViewerState :=
  { data := [], loading := true, isRefreshing := false, error := none,
    lastUpdated := none }

/-- Default message used when the caught error has no truthy `message`:
`err.message || 'An unknown error occurred during refresh.'` (line 44). -/
def defaultRefreshError : String :=
  "An unknown error occurred during refresh."

/-- JavaScript `err.message || default`: an absent or empty (falsy)
message string falls through to the default. -/
def jsMessageOrDefault : Option String → String
  | none => defaultRefreshError
  | some s => if s = "" then defaultRefreshError else s

/-- One state transition of `fetchData` (lines 24-51).  A fetch start sets
the refresh indicator.  A successful completion replaces `data` with
`records || []`, stamps `lastUpdated`, clears `error`, and the `finally`
block clears both `loading` and `isRefreshing`.  A failed completion sets
`error` to the message (or the default) and runs the same `finally`
block; `data` and `lastUpdated` are not touched. -/
def step (s : ViewerState) : Event → ViewerState
  | Event.fetchStart => { s with isRefreshing := true }
  | Event.fetchComplete (FetchOutcome.success records) t =>
      { s with data := records.getD [], lastUpdated := some t,
               error := none, loading := false, isRefreshing := false }
  | Event.fetchComplete (FetchOutcome.failure msg) _ =>
      { s with error := some (jsMessageOrDefault msg),
               loading := false, isRefreshing := false }

/-- State after a sequence of fetch events since mount. -/
def runTrace (es : List Event) : ViewerState :=
  es.foldl step initialState

/-- Whether an event is the completion of a fetch (success or failure). -/
def eventCompletes : Event → Bool
  | Event.fetchStart => false
  | Event.fetchComplete _ _ => true

/-- Accumulator for the specification-side Snapshot: a successful
completion replaces the accumulated rows with that fetch's payload
(normalised through `records || []`); other events keep them. -/
def snapshotAcc (acc : List Row) : Event → List Row
  | Event.fetchComplete (FetchOutcome.success rows) _ => rows.getD []
  | _ => acc

/-- Specification-side reading of the Snapshot: the rows of the most
recent successful fetch in the trace (normalised through `records || []`),
or the empty sequence when no fetch has succeeded. -/
def mostRecentSuccessRows (es : List Event) : List Row :=
  es.foldl snapshotAcc []

/-- Accumulator for the specification-side failure flag: a completed fetch
sets the flag to whether it failed; a fetch start keeps it. -/
def failedAcc (acc : Bool) : Event → Bool
  | Event.fetchStart => acc
  | Event.fetchComplete (FetchOutcome.success _) _ => false
  | Event.fetchComplete (FetchOutcome.failure _) _ => true

/-- Specification-side predicate: the most recent completed fetch in the
trace failed (fetch starts in between do not change it, so it also holds
while a later fetch is in flight after a failure and has not resolved). -/
def lastCompletedFetchFailed (es : List Event) : Bool :=
  es.foldl failedAcc false

/-- Accumulator for the specification-side in-flight flag: a start raises
it, a completion lowers it. -/
def inFlightAcc (acc : Bool) : Event → Bool
  | Event.fetchStart => true
  | Event.fetchComplete _ _ => acc && false

/-- Specification-side in-flight flag: the last start/completion event was
a start (a fetch has been issued and has not yet resolved). -/
def inFlightFlag (es : List Event) : Bool :=
  es.foldl inFlightAcc false

/-- JavaScript truthiness of the `error` state (a string or `null`): used
by `if (error && ...)` on line 80 and `{error && ...}` on line 112.  The
empty string is falsy. -/
def errTruthy : Option String → Bool
  | none => false
  | some s => !(s = "")

/-- Replace the first underscore of a character list by a space. -/
def replaceFirstUnderscoreChars : List Char → List Char
  | [] => []
  | c :: cs => if c = '_' then ' ' :: cs else c :: replaceFirstUnderscoreChars cs

/-- JavaScript `key.replace('_', ' ')` (line 118): with a string pattern,
`String.prototype.replace` substitutes only the FIRST occurrence. -/
def jsReplaceFirstUnderscore (s : String) : String :=
  String.mk (replaceFirstUnderscoreChars s.data)

/-- Specification-side label transform: EVERY underscore replaced by a
space, as the claim words it. -/
def replaceAllUnderscores (s : String) : String :=
  String.mk (s.data.map (fun c => if c = '_' then ' ' else c))

/-- Number of underscores in a key. -/
def underscoreCount (s : String) : Nat :=
  s.data.countP (fun c => c = '_')

/-- Rendered field list of one row (lines 116-121): each field becomes a
label (the key with its first underscore replaced by a space) paired with
the JSON serialization of its value. -/
def renderRow (r : Row) : List (String × String) :=
  r.map (fun kv => (jsReplaceFirstUnderscore kv.1, jsonStringify kv.2))

/-- Message of the full-page initial loader (line 74), with the table name
interpolated. -/
def loadingMsg (tableName : String) : String :=
  "Loading data from \x27" ++ tableName ++ "\x27..."

/-- Message of the empty-table state (line 92), with the table name
interpolated. -/
def emptyMsg (tableName : String) : String :=
  "No records found in the \x27" ++ tableName ++ "\x27 table."

/-- The four render outputs of `SupabaseTableViewer` (lines 70-126):
the full-page initial loader, the blocking error panel (table name and
error text), the empty-table message, or the record list carrying the
background-refresh spinner flag, the optional last-updated timestamp,
the optional non-blocking failure banner, and the rendered rows. -/
inductive Render where
  | initialLoading : String → Render
  | errorPanel : String → String → Render
  | emptyState : String → Render
  | recordList : String → Bool → Option Nat → Option String →
      List (List (String × String)) → Render

/-- Render logic of `SupabaseTableViewer` (lines 70-126): full-page loader
while `loading`; blocking error panel when `error` is truthy and `data` is
empty; empty-state message when `data` is empty; otherwise the list, with
the spinner shown iff `isRefreshing`, the timestamp shown iff
`lastUpdated` is non-null, and the warning banner shown iff `error` is
truthy. -/
def render (tableName : String) (s : ViewerState) : Render :=
  if s.loading then
    Render.initialLoading (loadingMsg tableName)
  else if errTruthy s.error && (s.data.length = 0) then
    Render.errorPanel tableName (s.error.getD "")
  else if s.data.length = 0 then
    Render.emptyState (emptyMsg tableName)
  else
    Render.recordList tableName s.isRefreshing s.lastUpdated
      (if errTruthy s.error then s.error else none)
      (s.data.map renderRow)

/-- Output of the root `App` component (lines 131-162): either the static
configuration-needed panel, or the mounted viewer with its table name and
poll interval. -/
inductive AppRender where
  | configPanel : AppRender
  | viewer : String → Int → AppRender
deriving DecidableEq

/-- Root shell decision (lines 150-157): the configuration-needed panel is
rendered exactly when the configured endpoint URL is the string
`YOUR_SUPABASE_URL`; otherwise `SupabaseTableViewer` is mounted with the
constant table name `tickets` and poll interval `5000`.  The URL and key
come from the build environment and may each be absent (`none`); JS `===`
between `undefined` and a string is false.  The access key is never
inspected by this check. -/
def appRender (supabaseUrl supabaseAnonKey : Option String) : AppRender :=
  if supabaseUrl = some "YOUR_SUPABASE_URL" then AppRender.configPanel
  else AppRender.viewer "tickets" 5000

/-- Timer armed by the mount effect (lines 57-64): JavaScript
`if (pollInterval && pollInterval > 0)` arms `setInterval(fetchData,
pollInterval)`.  `0` is falsy, so the timer is armed exactly for positive
intervals. -/
def armedTimer (pollInterval : Int) : Option Int :=
  if pollInterval ≠ 0 ∧ pollInterval > 0 then some pollInterval else none

/-- Effect of mounting the viewer (lines 53-65): one immediate fetch, plus
the timer armed according to the poll interval. -/
structure MountEffect where
  immediateFetch : Bool
  timer : Option Int

/-- The mount effect for a given poll interval. -/
def startEffect (pollInterval : Int) : MountEffect :=
  { immediateFetch := true, timer := armedTimer pollInterval }

/-- Environment model of `setInterval`: an armed timer with period `p`
fires at times `p, 2p, 3p, ...` after it was armed; an unarmed timer never
fires. -/
def timerFires (timer : Option Int) (t : Nat) : Bool :=
  match timer with
  | none => false
  | some p => if 0 < t ∧ t % p.toNat = 0 then true else false

/-- Whether a fetch occurs at time `t` for a viewer mounted at time `0`
and never unmounted: the immediate fetch at `t = 0`, plus the armed
timer's ticks. -/
def fetchOccursAt (pollInterval : Int) (t : Nat) : Bool :=
  (t = 0) || timerFires (startEffect pollInterval).timer t

/-- Whether a timer-driven fetch occurs at time `t` for a viewer mounted
at time `0` and unmounted at time `unmountAt`: the cleanup returned by the
effect (line 63) runs `clearInterval` on the armed timer at unmount, after
which it can no longer fire. -/
def tickFiresBeforeUnmount (pollInterval : Int) (unmountAt t : Nat) : Bool :=
  timerFires (startEffect pollInterval).timer t && decide (t < unmountAt)

/- Helper lemmas: each field of the state after a fold of `step` agrees
with the corresponding specification-side accumulator. -/

theorem runTrace_append (es : List Event) (e : Event) :
    runTrace (es ++ [e]) = step (runTrace es) e := by
  simp [runTrace, List.foldl_append]

theorem step_data (s : ViewerState) (e : Event) :
    (step s e).data = snapshotAcc s.data e := by
  cases e with
  | fetchStart => rfl
  | fetchComplete o t => cases o <;> rfl

theorem foldl_step_data (es : List Event) (s : ViewerState) :
    (es.foldl step s).data = es.foldl snapshotAcc s.data := by
  induction es generalizing s with
  | nil => rfl
  | cons e es ih => simp only [List.foldl_cons]; rw [ih, step_data]

theorem step_loading (s : ViewerState) (e : Event) :
    (step s e).loading = (s.loading && !eventCompletes e) := by
  cases e with
  | fetchStart => simp [step, eventCompletes]
  | fetchComplete o t => cases o <;> simp [step, eventCompletes]

theorem foldl_step_loading (es : List Event) (s : ViewerState) :
    (es.foldl step s).loading = (s.loading && !(es.any eventCompletes)) := by
  induction es generalizing s with
  | nil => simp
  | cons e es ih =>
      simp only [List.foldl_cons, List.any_cons]
      rw [ih, step_loading]
      cases eventCompletes e <;> simp

theorem step_error_isSome (s : ViewerState) (e : Event) :
    (step s e).error.isSome = failedAcc s.error.isSome e := by
  cases e with
  | fetchStart => rfl
  | fetchComplete o t => cases o <;> rfl

theorem foldl_step_error_isSome (es : List Event) (s : ViewerState) :
    (es.foldl step s).error.isSome = es.foldl failedAcc s.error.isSome := by
  induction es generalizing s with
  | nil => rfl
  | cons e es ih => simp only [List.foldl_cons]; rw [ih, step_error_isSome]

theorem step_isRefreshing (s : ViewerState) (e : Event) :
    (step s e).isRefreshing = inFlightAcc s.isRefreshing e := by
  cases e with
  | fetchStart => rfl
  | fetchComplete o t => cases o <;> simp [step, inFlightAcc]

theorem foldl_step_isRefreshing (es : List Event) (s : ViewerState) :
    (es.foldl step s).isRefreshing = es.foldl inFlightAcc s.isRefreshing := by
  induction es generalizing s with
  | nil => rfl
  | cons e es ih => simp only [List.foldl_cons]; rw [ih, step_isRefreshing]

theorem jsMessageOrDefault_ne_empty (m : Option String) :
    jsMessageOrDefault m ≠ "" := by
  cases m with
  | none => decide
  | some s =>
      by_cases h : s = ""
      · simp [jsMessageOrDefault, h]; decide
      · simp [jsMessageOrDefault, h]

theorem foldl_step_error_ne_empty (es : List Event) (s : ViewerState)
    (hs : ∀ m, s.error = some m → m ≠ "") :
    ∀ m, (es.foldl step s).error = some m → m ≠ "" := by
  induction es generalizing s with
  | nil => exact hs
  | cons e es ih =>
      simp only [List.foldl_cons]
      apply ih
      cases e with
      | fetchStart => exact hs
      | fetchComplete o t =>
          cases o with
          | success rows => intro m hm; simp [step] at hm
          | failure mm =>
              intro m hm
              simp only [step, Option.some.injEq] at hm
              exact hm ▸ jsMessageOrDefault_ne_empty mm

theorem runTrace_error_ne_empty (es : List Event) (msg : String)
    (h : (runTrace es).error = some msg) : msg ≠ "" :=
  foldl_step_error_ne_empty es initialState (by intro m hm; cases hm) msg h

theorem errTruthy_runTrace (es : List Event) :
    errTruthy (runTrace es).error = (runTrace es).error.isSome := by
  cases h : (runTrace es).error with
  | none => simp [errTruthy]
  | some m =>
      have hne := runTrace_error_ne_empty es m h
      simp [errTruthy, hne]

/-- C1: for every sequence of fetch outcomes since mount, after a
successful fetch the Snapshot equals exactly the rows returned by that
fetch (or the empty sequence when the service returns no rows), the
last-updated timestamp is set to the completion time, and lastError is
cleared to null; and at every instant the Snapshot equals the payload of
the most recent successful fetch. -/
theorem snapshot_tracks_last_success :
    (∀ (es : List Event) (rows : Option (List Row)) (t : Nat),
        (runTrace (es ++ [Event.fetchComplete (FetchOutcome.success rows) t])).data
            = rows.getD [] ∧
        (runTrace (es ++ [Event.fetchComplete (FetchOutcome.success rows) t])).lastUpdated
            = some t ∧
        (runTrace (es ++ [Event.fetchComplete (FetchOutcome.success rows) t])).error
            = none)
    ∧ (∀ es : List Event, (runTrace es).data = mostRecentSuccessRows es) := by
  constructor
  · intro es rows t
    rw [runTrace_append]
    exact ⟨rfl, rfl, rfl⟩
  · intro es
    exact foldl_step_data es initialState

/-- C2: a failed fetch sets lastError to the failure's message string and
leaves the Snapshot (and the last-updated timestamp) completely
unchanged, and every completed fetch — success or failure — clears the
in-flight flag. -/
theorem failure_atomic_and_clears_inflight :
    (∀ (es : List Event) (m : Option String) (t : Nat),
        (runTrace (es ++ [Event.fetchComplete (FetchOutcome.failure m) t])).data
            = (runTrace es).data ∧
        (runTrace (es ++ [Event.fetchComplete (FetchOutcome.failure m) t])).lastUpdated
            = (runTrace es).lastUpdated)
    ∧ (∀ (es : List Event) (msg : String) (t : Nat), msg ≠ "" →
        (runTrace (es ++ [Event.fetchComplete (FetchOutcome.failure (some msg)) t])).error
            = some msg)
    ∧ (∀ (s : ViewerState) (o : FetchOutcome) (t : Nat),
        (step s (Event.fetchComplete o t)).isRefreshing = false) := by
  refine ⟨?_, ?_, ?_⟩
  · intro es m t
    rw [runTrace_append]
    exact ⟨rfl, rfl⟩
  · intro es msg t h
    rw [runTrace_append]
    simp [step, jsMessageOrDefault, h]
  · intro s o t
    cases o <;> rfl

/-- C2 witness: a concrete failing fetch after a successful one. -/
theorem failure_atomic_witness :
    ("boom" ≠ "") ∧
    (runTrace ([Event.fetchComplete
          (FetchOutcome.success (some [[("uuid", Json.str "a")]])) 1]
        ++ [Event.fetchComplete (FetchOutcome.failure (some "boom")) 2])).error
      = some "boom" :=
  ⟨by decide,
    failure_atomic_and_clears_inflight.2.1
      [Event.fetchComplete
          (FetchOutcome.success (some [[("uuid", Json.str "a")]])) 1]
      "boom" 2 (by decide)⟩

/-- C3: lastError is non-null exactly when the most recent completed
fetch failed (which also covers the case of a later fetch in flight after
a prior failure, since starting a fetch does not touch lastError), and
starting a new fetch never clears lastError. -/
theorem lastError_iff_last_completed_failed :
    (∀ es : List Event,
        (runTrace es).error.isSome = lastCompletedFetchFailed es)
    ∧ (∀ s : ViewerState, (step s Event.fetchStart).error = s.error) := by
  constructor
  · intro es
    exact foldl_step_error_isSome es initialState
  · intro s
    rfl

/-- C4: the full-page initial loading indicator, with the table name
interpolated into its message, is rendered exactly when no fetch has ever
completed — with success or with failure — since mount. -/
theorem initial_loading_iff_no_completion :
    ∀ (tableName : String) (es : List Event),
      (render tableName (runTrace es)
          = Render.initialLoading (loadingMsg tableName))
        ↔ es.any eventCompletes = false := by
  intro tn es
  have hl : (runTrace es).loading = !(es.any eventCompletes) := by
    simpa using foldl_step_loading es initialState
  cases hany : es.any eventCompletes with
  | false =>
      rw [hany] at hl
      simp [render, hl]
  | true =>
      rw [hany] at hl
      simp only [render, hl, Bool.not_true, if_false, Bool.false_eq_true]
      split
      · simp
      · split <;> simp

/-- C5: once at least one fetch has completed, rendering dispatches as
follows: with an error and an empty Snapshot, the blocking error panel
(table name and error text) and no list; with an empty Snapshot and no
error, the empty-state message naming the table; otherwise the record
list carrying the refreshing indicator exactly when a fetch is in flight,
the last-updated timestamp of the most recent success, and the
non-blocking warning banner exactly when lastError is set.  The in-flight
flag of the state agrees with the trace-derived in-flight flag. -/
theorem render_dispatch_after_completion :
    ∀ (tableName : String) (es : List Event),
      ((runTrace es).loading = false →
        ((∀ msg, (runTrace es).error = some msg → (runTrace es).data = [] →
            render tableName (runTrace es) = Render.errorPanel tableName msg)
         ∧ ((runTrace es).error = none → (runTrace es).data = [] →
            render tableName (runTrace es) = Render.emptyState (emptyMsg tableName))
         ∧ ((runTrace es).data ≠ [] →
            render tableName (runTrace es)
              = Render.recordList tableName (runTrace es).isRefreshing
                  (runTrace es).lastUpdated (runTrace es).error
                  ((runTrace es).data.map renderRow))))
      ∧ (runTrace es).isRefreshing = inFlightFlag es := by
  intro tn es
  constructor
  · intro hload
    refine ⟨?_, ?_, ?_⟩
    · intro msg herr hdata
      have hne := runTrace_error_ne_empty es msg herr
      simp [render, hload, hdata, herr, errTruthy, hne]
    · intro herr hdata
      simp [render, hload, hdata, herr, errTruthy]
    · intro hdata
      have hlen : ¬((runTrace es).data.length = 0) := by
        simpa [List.length_eq_zero] using hdata
      cases herr : (runTrace es).error with
      | none => simp [render, hload, hlen, herr, errTruthy]
      | some msg =>
          have hne := runTrace_error_ne_empty es msg herr
          simp [render, hload, hlen, herr, errTruthy, hne]
  · exact foldl_step_isRefreshing es initialState

/-- C5 witness: after one completed fetch that returned no rows, the
empty-state branch is selected. -/
theorem render_dispatch_witness :
    (runTrace [Event.fetchComplete (FetchOutcome.success none) 0]).loading
        = false ∧
    (runTrace [Event.fetchComplete (FetchOutcome.success none) 0]).error
        = none ∧
    (runTrace [Event.fetchComplete (FetchOutcome.success none) 0]).data
        = [] ∧
    render "tickets" (runTrace [Event.fetchComplete (FetchOutcome.success none) 0])
        = Render.emptyState (emptyMsg "tickets") :=
  ⟨rfl, rfl, rfl,
    ((render_dispatch_after_completion "tickets"
        [Event.fetchComplete (FetchOutcome.success none) 0]).1 rfl).2.1 rfl rfl⟩

/-- C6 counterexample: when the endpoint URL is absent (and likewise for
any value of the access key), the root shell still mounts the viewer —
the code compares only the URL against the placeholder string, so absence
does not route to the configuration-needed panel. -/
theorem absent_url_still_mounts_viewer :
    appRender none none = AppRender.viewer "tickets" 5000 ∧
    appRender none none ≠ AppRender.configPanel ∧
    appRender (some "https://x.supabase.co") (some "YOUR_SUPABASE_ANON_KEY")
        ≠ AppRender.configPanel := by
  refine ⟨rfl, by decide, by decide⟩

/-- C6 amended: the configuration-needed panel is rendered exactly when
the endpoint URL equals the placeholder string `YOUR_SUPABASE_URL`
(absence of the URL and the value of the access key are not checked);
otherwise the viewer is mounted with the constant table name and poll
interval, and only then can any fetch occur. -/
theorem config_panel_iff_url_placeholder :
    (∀ key : Option String,
        appRender (some "YOUR_SUPABASE_URL") key = AppRender.configPanel)
    ∧ (∀ url key : Option String, url ≠ some "YOUR_SUPABASE_URL" →
        appRender url key = AppRender.viewer "tickets" 5000) := by
  constructor
  · intro key
    simp [appRender]
  · intro url key h
    simp [appRender, h]

/-- C6 witness: the placeholder URL shows the panel; a distinct URL
mounts the viewer. -/
theorem config_panel_witness :
    appRender (some "YOUR_SUPABASE_URL") none = AppRender.configPanel ∧
    ((some "https://x.supabase.co" : Option String) ≠ some "YOUR_SUPABASE_URL") ∧
    appRender (some "https://x.supabase.co") (some "k")
        = AppRender.viewer "tickets" 5000 :=
  ⟨config_panel_iff_url_placeholder.1 none, by decide,
    config_panel_iff_url_placeholder.2 (some "https://x.supabase.co") (some "k")
      (by decide)⟩

/-- C7 counterexample: for the key `ticket_status_new` the rendered label
keeps the second underscore — JavaScript `replace` with a string pattern
substitutes only the first occurrence — while the claim's
every-underscore transform would produce `ticket status new`. -/
theorem second_underscore_not_replaced :
    (renderRow [("ticket_status_new", Json.null)]).map Prod.fst
        = ["ticket status_new"] ∧
    replaceAllUnderscores "ticket_status_new" = "ticket status new" ∧
    ("ticket status_new" : String) ≠ "ticket status new" := by
  refine ⟨by decide, by decide, by decide⟩

theorem map_no_underscore (l : List Char) (h : ∀ x ∈ l, ¬ x = '_') :
    l.map (fun c => if c = '_' then ' ' else c) = l := by
  induction l with
  | nil => rfl
  | cons c cs ih =>
      have hc : ¬ c = '_' := h c (List.mem_cons_self c cs)
      simp only [List.map_cons, if_neg hc]
      rw [ih (fun x hx => h x (List.mem_cons_of_mem c hx))]

theorem replaceFirst_eq_replaceAll_of_le_one (l : List Char)
    (h : l.countP (fun c => c = '_') ≤ 1) :
    replaceFirstUnderscoreChars l
      = l.map (fun c => if c = '_' then ' ' else c) := by
  induction l with
  | nil => rfl
  | cons c cs ih =>
      by_cases hc : c = '_'
      · have h0 : ∀ x ∈ cs, ¬ x = '_' := by
          intro x hx hx'
          have h1 : 0 < cs.countP (fun c => c = '_') :=
            List.countP_pos_iff.mpr ⟨x, hx, by simp [hx']⟩
          have h2 : (c :: cs).countP (fun c => c = '_')
              = cs.countP (fun c => c = '_') + 1 := by
            rw [List.countP_cons, if_pos (by simp [hc])]
          omega
        simp only [replaceFirstUnderscoreChars, if_pos hc, List.map_cons,
          if_pos hc]
        rw [map_no_underscore cs h0]
      · have h2 : (c :: cs).countP (fun c => c = '_')
            = cs.countP (fun c => c = '_') := by
          rw [List.countP_cons, if_neg (by simp [hc]), Nat.add_zero]
        simp only [replaceFirstUnderscoreChars, if_neg hc, List.map_cons,
          if_neg hc]
        rw [ih (by omega)]

/-- C7 amended: every field of a row is rendered as the pair of its label
and the JSON serialization of its value, where the label is the key with
its FIRST underscore (not every underscore) replaced by a space; when the
key contains at most one underscore this coincides with replacing every
underscore. -/
theorem labels_replace_first_underscore :
    ∀ (r : Row) (k : String) (v : Json), (k, v) ∈ r →
      ((jsReplaceFirstUnderscore k, jsonStringify v) ∈ renderRow r
       ∧ (underscoreCount k ≤ 1 →
            jsReplaceFirstUnderscore k = replaceAllUnderscores k)) := by
  intro r k v hmem
  constructor
  · exact List.mem_map_of_mem (fun kv => (jsReplaceFirstUnderscore kv.1, jsonStringify kv.2)) hmem
  · intro hcount
    unfold jsReplaceFirstUnderscore replaceAllUnderscores
    rw [replaceFirst_eq_replaceAll_of_le_one k.data hcount]

/-- C7 witness: a concrete one-underscore key. -/
theorem labels_witness :
    ((("ticket_id", Json.str "a")) ∈ ([("ticket_id", Json.str "a")] : Row)) ∧
    (jsReplaceFirstUnderscore "ticket_id", jsonStringify (Json.str "a"))
        ∈ renderRow [("ticket_id", Json.str "a")] ∧
    underscoreCount "ticket_id" ≤ 1 ∧
    jsReplaceFirstUnderscore "ticket_id" = replaceAllUnderscores "ticket_id" :=
  have hmem : (("ticket_id", Json.str "a"))
      ∈ ([("ticket_id", Json.str "a")] : Row) := List.mem_singleton.mpr rfl
  ⟨hmem,
    (labels_replace_first_underscore [("ticket_id", Json.str "a")]
        "ticket_id" (Json.str "a") hmem).1,
    by decide,
    (labels_replace_first_underscore [("ticket_id", Json.str "a")]
        "ticket_id" (Json.str "a") hmem).2 (by decide)⟩

/-- C8: for a poll interval at most zero, mounting arms no timer and the
immediate fetch at time zero is the only fetch that ever occurs; for a
positive poll interval, the repeating timer at that period is armed in
addition to the immediate fetch. -/
theorem nonpositive_interval_single_fetch :
    (∀ p : Int, p ≤ 0 →
        (startEffect p).timer = none ∧
        (∀ t : Nat, fetchOccursAt p t = true ↔ t = 0))
    ∧ (∀ p : Int, 0 < p →
        (startEffect p).timer = some p ∧
        (startEffect p).immediateFetch = true) := by
  constructor
  · intro p hp
    have ht : armedTimer p = none := by
      unfold armedTimer
      rw [if_neg]
      rintro ⟨-, h2⟩
      omega
    refine ⟨ht, ?_⟩
    intro t
    simp [fetchOccursAt, startEffect, ht, timerFires]
  · intro p hp
    refine ⟨?_, rfl⟩
    unfold startEffect armedTimer
    rw [if_pos ⟨by omega, hp⟩]

/-- C8 witness: interval `-3` arms no timer and fetches only at time
zero; interval `5000` arms the `5000` ms timer. -/
theorem nonpositive_interval_witness :
    ((-3 : Int) ≤ 0) ∧ (startEffect (-3)).timer = none ∧
    (fetchOccursAt (-3) 9000 = true ↔ 9000 = 0) ∧
    ((0 : Int) < 5000) ∧ (startEffect 5000).timer = some 5000 :=
  ⟨by decide,
    (nonpositive_interval_single_fetch.1 (-3) (by decide)).1,
    (nonpositive_interval_single_fetch.1 (-3) (by decide)).2 9000,
    by decide,
    (nonpositive_interval_single_fetch.2 5000 (by decide)).1⟩

/-- C9: unmounting runs the cleanup that clears the armed interval, so no
timer-driven fetch occurs at or after the unmount time; in particular
with interval `5000` and unmount at `1000`, no tick fires at `5000` or
any later time. -/
theorem no_tick_after_unmount :
    (∀ (p : Int) (u t : Nat), u ≤ t →
        tickFiresBeforeUnmount p u t = false)
    ∧ (∀ t : Nat, 5000 ≤ t →
        tickFiresBeforeUnmount 5000 1000 t = false) := by
  have h1 : ∀ (p : Int) (u t : Nat), u ≤ t →
      tickFiresBeforeUnmount p u t = false := by
    intro p u t h
    have hnot : ¬ t < u := by omega
    simp [tickFiresBeforeUnmount, hnot]
  exact ⟨h1, fun t ht => h1 5000 1000 t (by omega)⟩

/-- C9 witness: the tick scheduled for `t = 5000` does not fire after an
unmount at `t = 1000`. -/
theorem no_tick_after_unmount_witness :
    (1000 ≤ 5000) ∧ tickFiresBeforeUnmount 5000 1000 5000 = false :=
  ⟨by omega, no_tick_after_unmount.1 5000 1000 5000 (by omega)⟩

/-- C10: the Snapshot is a genuine list in every reachable state — empty
at mount, and a successful fetch whose payload is null is normalised to
the empty list, after which the render path shows the empty-state message
rather than failing. -/
theorem snapshot_always_a_list :
    initialState.data = [] ∧
    (∀ (es : List Event) (t : Nat),
        (runTrace (es ++ [Event.fetchComplete (FetchOutcome.success none) t])).data
          = []) ∧
    (∀ (tableName : String) (es : List Event) (t : Nat),
        render tableName
            (runTrace (es ++ [Event.fetchComplete (FetchOutcome.success none) t]))
          = Render.emptyState (emptyMsg tableName)) := by
  refine ⟨rfl, ?_, ?_⟩
  · intro es t
    rw [runTrace_append]
    rfl
  · intro tn es t
    rw [runTrace_append]
    simp [render, step, errTruthy]

end DbView
